import Mathlib

/-!
Verification of the Costco products scraper (`costco_scraper.py`) against its
natural-language specification.  The Python source is shallowly embedded:
JSON values become the inductive `JVal`, each relevant Python function becomes
a Lean function of the same name, and the claims of the specification are
settled as theorems about those functions.
-/

set_option maxHeartbeats 1000000

namespace CostcoScraper

/-- JSON-like values as delivered by the search and GraphQL endpoints and
manipulated by the Python code.  `null` doubles as Python `None` (they
coincide after `json.loads`), objects are association lists. -/
inductive JVal where
  | null
  | str (s : String)
  | num (n : Int)
  | arr (xs : List JVal)
  | obj (kvs : List (String × JVal))
  deriving Inhabited

/-- Python truthiness (`bool(x)`) for the JSON values above. -/
def truthy : JVal → Bool
  | .null => false
  | .str s => !s.data.isEmpty
  | .num n => n != 0
  | .arr xs => !xs.isEmpty
  | .obj kvs => !kvs.isEmpty

/-- `d[k]` existence: key lookup in a JSON object (first binding wins, as in a
Python dict, whose keys are unique).  Non-objects have no keys: calling
`.get` on one raises `AttributeError` in the source.  Inside the channel
classifier — where that exception is caught by the normalizer — the raise is
modelled explicitly by `determineRaises`; this accessor itself stays total. -/
def jget : JVal → String → Option JVal
  | .obj kvs, k => kvs.lookup k
  | _, _ => none

/-- Python `d.get(k)` — `None` when the key is absent. -/
def pyGet (v : JVal) (k : String) : JVal := (jget v k).getD .null

/-- Python `d.get(k, dflt)` — the default only fires when the key is absent;
a key present with value `null` yields `null`. -/
def pyGetD (v : JVal) (k : String) (dflt : JVal) : JVal := (jget v k).getD dflt

/-- Python `a or b` on JSON values. -/
def pyOr (a b : JVal) : JVal := if truthy a then a else b

/-- The source's `listify`: `None` becomes `[]`, lists stay, anything else is
wrapped in a singleton list. -/
def listify : JVal → List JVal
  | .null => []
  | .arr xs => xs
  | v => [v]

/-- Hexadecimal digit used by Python string escapes. -/
def hexDigit (n : Nat) : Char :=
  if n < 10 then Char.ofNat (48 + n) else Char.ofNat (87 + n)

/-- Python `repr` of a string (ASCII fidelity): quoted with a single quote
unless the string contains one and no double quote, escaping the backslash,
the chosen quote and control characters.  Printable characters — including
the letters and spaces of the phrases the scans look for — pass through
unchanged. -/
def pyReprStr (s : String) : String :=
  let sqc := Char.ofNat 39
  let dqc := Char.ofNat 34
  let q := if s.data.contains sqc && !s.data.contains dqc then dqc else sqc
  let esc := fun (c : Char) =>
    if c = '\\' then ['\\', '\\']
    else if c = q then ['\\', q]
    else if c = '\n' then ['\\', 'n']
    else if c = '\r' then ['\\', 'r']
    else if c = '\t' then ['\\', 't']
    else if c.toNat < 32 || c.toNat = 127 then
      ['\\', 'x', hexDigit (c.toNat / 16), hexDigit (c.toNat % 16)]
    else [c]
  ⟨q :: s.data.foldr (fun c acc => esc c ++ acc) [q]⟩

mutual

/-- Python `repr` of a JSON value as it appears nested inside a container:
`None`, decimal integers, quoted strings, bracketed lists, braced dicts. -/
def pyRepr : JVal → String
  | .null => "None"
  | .str s => pyReprStr s
  | .num n => toString n
  | .arr xs => "[" ++ pyReprList xs ++ "]"
  | .obj kvs => "\x7b" ++ pyReprObj kvs ++ "\x7d"

/-- Comma-joined `repr` display of list elements. -/
def pyReprList : List JVal → String
  | [] => ""
  | [x] => pyRepr x
  | x :: xs => pyRepr x ++ ", " ++ pyReprList xs

/-- Comma-joined `key: value` display of dict items. -/
def pyReprObj : List (String × JVal) → String
  | [] => ""
  | [kv] => pyReprStr kv.1 ++ ": " ++ pyRepr kv.2
  | kv :: kvs => pyReprStr kv.1 ++ ": " ++ pyRepr kv.2 ++ ", " ++ pyReprObj kvs

end

/-- Python `str(x)`: strings pass through unquoted, `None` prints as `None`,
integers in decimal, and containers display as their `repr` — in which
nested strings appear quoted, so a phrase carried inside a container value
is visible to the substring scans, exactly as in the source. -/
def pyStr : JVal → String
  | .null => "None"
  | .str s => s
  | .num n => toString n
  | .arr xs => pyRepr (.arr xs)
  | .obj kvs => pyRepr (.obj kvs)

/-- Lower-casing of one ASCII character, as Python `.lower()` acts on the
ASCII text these fields carry. -/
def pyCharLower (c : Char) : Char :=
  if 65 ≤ c.toNat ∧ c.toNat ≤ 90 then Char.ofNat (c.toNat + 32) else c

/-- Python `s.lower()` (ASCII). -/
def pyLower (s : String) : String := ⟨s.data.map pyCharLower⟩

/-- The whitespace class stripped by Python `s.strip()`. -/
def pyIsSpace (c : Char) : Bool :=
  c == ' ' || c == '\t' || c == '\n' || c == '\r' || c == '\x0b' || c == '\x0c'

/-- Python `s.strip()`. -/
def pyTrim (s : String) : String :=
  ⟨((s.data.dropWhile pyIsSpace).reverse.dropWhile pyIsSpace).reverse⟩

/-- Matching of a needle at the head of a character list. -/
def charsStartWith : List Char → List Char → Bool
  | [], _ => true
  | _ :: _, [] => false
  | n :: ns, h :: hs => n == h && charsStartWith ns hs

/-- Substring search over character lists. -/
def charsContain (needle : List Char) : List Char → Bool
  | [] => charsStartWith needle []
  | h :: hs => charsStartWith needle (h :: hs) || charsContain needle hs

/-- Python `needle in hay` on strings (substring containment). -/
def containsSubstr (needle hay : String) : Bool :=
  charsContain needle.data hay.data

/-- Python `x == ""` for a JSON value: true exactly for the empty string. -/
def isEmptyStr : JVal → Bool
  | .str s => s.data.isEmpty
  | _ => false

/-! ### determine_order_channel_from_catalog_payload -/

/-- One attribute entry scanned by `scan_attrs`: `str(a.get("key") or "")`
(resp. `"value"`) stripped, lowered, checked for the literal phrase. -/
def attrHasPhrase (phrase : String) (a : JVal) : Bool :=
  let key := pyLower (pyTrim (pyStr (pyOr (pyGet a "key") (.str ""))))
  let val := pyLower (pyTrim (pyStr (pyOr (pyGet a "value") (.str ""))))
  containsSubstr phrase key || containsSubstr phrase val

/-- `payload.get("catalogData") or []`, listified. -/
def topCats (p : JVal) : List JVal := listify (pyOr (pyGet p "catalogData") (.arr []))

/-- `child = payload.get("childData") or {}`. -/
def childOf (p : JVal) : JVal := pyOr (pyGet p "childData") (.obj [])

/-- `child.get("catalogData") or []`, listified. -/
def childCats (p : JVal) : List JVal :=
  listify (pyOr (pyGet (childOf p) "catalogData") (.arr []))

/-- `payload.get("fulfillmentData") or []`, listified. -/
def fulfills (p : JVal) : List JVal := listify (pyOr (pyGet p "fulfillmentData") (.arr []))

/-- `cat.get("attributes") or []`, listified. -/
def attrsOfCat (cat : JVal) : List JVal := listify (pyOr (pyGet cat "attributes") (.arr []))

/-- The `online_attr` flag: some scanned attribute of `catalogData` or
`childData.catalogData` mentions the phrase "online only". -/
def onlineAttr (p : JVal) : Bool :=
  (topCats p ++ childCats p).any fun c => (attrsOfCat c).any (attrHasPhrase "online only")

/-- The `warehouse_attr` flag: phrase "warehouse only" in a scanned attribute. -/
def warehouseAttr (p : JVal) : Bool :=
  (topCats p ++ childCats p).any fun c => (attrsOfCat c).any (attrHasPhrase "warehouse only")

/-- The `warehouse_fulfill` flag: a fulfillment entry with a truthy
`warehouseNumber`, or whose lowered `channel` mentions warehouse/store/instore. -/
def warehouseFulfill (p : JVal) : Bool :=
  (fulfills p).any fun f =>
    truthy (pyGet f "warehouseNumber") ||
    (let ch := pyLower (pyTrim (pyStr (pyOr (pyGet f "channel") (.str ""))))
     containsSubstr "warehouse" ch || containsSubstr "store" ch || containsSubstr "instore" ch)

/-- Whether a JSON value is an object (a Python dict, carrying `.get`). -/
def isObj : JVal → Bool
  | .obj _ => true
  | _ => false

/-- The points where the source's classifier calls `.get` on a non-dict and
raises `AttributeError`: the payload itself, each entry of `catalogData`,
the `childData` value, each entry of `childData.catalogData`, and each entry
of `fulfillmentData`.  Attribute entries themselves cannot raise — the
per-attribute `try/except` inside `scan_attrs` continues past them.  The
loops visit every entry unless an earlier one raised, so an execution raises
exactly when some such malformed point exists. -/
def determineRaises (p : JVal) : Bool :=
  !isObj p ||
  (topCats p).any (fun c => !isObj c) ||
  !isObj (childOf p) ||
  (childCats p).any (fun c => !isObj c) ||
  (fulfills p).any (fun f => !isObj f)

/-- The source's strict channel classifier over one GraphQL products
payload, as observed through its only call site: the normalizer wraps the
call in `try/except Exception` and maps an `AttributeError` raised at a
malformed entry to the undecided value, so a raising execution is rendered
as "any" whatever flags were already set. -/
def determine_order_channel_from_catalog_payload (p : JVal) : String :=
  if determineRaises p then "any"
  else if onlineAttr p && (warehouseAttr p || warehouseFulfill p) then "both"
  else if onlineAttr p && !(warehouseAttr p || warehouseFulfill p) then "online_only"
  else if (warehouseAttr p || warehouseFulfill p) && !onlineAttr p then "warehouse_only"
  else "any"

/-! ### normalize_doc_with_enrichment -/

/-- The normalized output row built by `normalize_doc_with_enrichment`.
Values keep their Python type (`JVal`, with `null` for Python `None`);
`order_channel` is always produced as a string by the source. -/
structure Row where
  id : JVal
  item_number : JVal
  name : JVal
  price : JVal
  listPrice : JVal
  product_pic : JVal
  product_description : JVal
  deliveryStatus : JVal
  availability : JVal
  review_count : JVal
  review_ratings : JVal
  categoryPath : JVal
  order_channel : String
  deriving Inhabited

/-- The item-number fallback chain
`d.get("item_number") or d.get("item_location_itemNumber") or d.get("itemNumber") or ""`. -/
def itemNumberOf (d : JVal) : JVal :=
  pyOr (pyGet d "item_number")
    (pyOr (pyGet d "item_location_itemNumber") (pyOr (pyGet d "itemNumber") (.str "")))

/-- `row["deliveryStatus"] = d.get("deliveryStatus", "")`. -/
def deliveryStatusOf (d : JVal) : JVal := pyGetD d "deliveryStatus" (.str "")

/-- The guard `ds is None or (isinstance(ds, str) and ds.strip() == "")` that
forces the price to `None`. -/
def deliveryStatusEmpty (d : JVal) : Bool :=
  match deliveryStatusOf d with
  | .null => true
  | .str s => (pyTrim s).data.isEmpty
  | _ => false

/-- The enrichment payload the normalizer uses for a document:
`item_number and item_number in product_graph_map` followed by the dict
lookup.  The map's keys are strings (they were built with `str(...)`), so a
non-string item number can never be a member. -/
def enrichmentOf (d : JVal) (m : List (String × JVal)) : Option JVal :=
  if truthy (itemNumberOf d) then
    match itemNumberOf d with
    | .str s => m.lookup s
    | _ => none
  else none

/-- Guard under which the badge branch runs without raising: the
delivery-status value is a string, or falsy (replaced by `""` through
`or ""`).  A truthy non-string would raise uncaught on `.lower()` in the
source, crashing normalization instead of classifying. -/
def deliveryStatusTextSafe (d : JVal) : Bool :=
  match deliveryStatusOf d with
  | .str _ => true
  | v => !truthy v

/-- `ds_low = (row.get("deliveryStatus") or "").lower()`.  A truthy
non-string value would raise on `.lower()` in the source
(`deliveryStatusTextSafe` scopes such inputs out where a claim depends on
this branch); the totalisation returns the empty string there. -/
def dsLowOf (d : JVal) : String :=
  match pyOr (deliveryStatusOf d) (.str "") with
  | .str s => pyLower s
  | _ => ""

/-- The document-badge branch of the classifier (the `else` arm used when no
enrichment payload is available for the item). -/
def badgeChannelOf (d : JVal) : String :=
  if containsSubstr "online only" (dsLowOf d) then "online_only"
  else if containsSubstr "warehouse only" (dsLowOf d) then "warehouse_only"
  else "any"

/-- The order-channel computation of `normalize_doc_with_enrichment`: the
payload classifier when an enrichment payload is present (the classifier
already renders a raising execution as the undecided value, matching the
`try/except` at this call site), the document-badge branch otherwise. -/
def orderChannelOf (d : JVal) (m : List (String × JVal)) : String :=
  match enrichmentOf d m with
  | some p => determine_order_channel_from_catalog_payload p
  | none => badgeChannelOf d

/-- Elements joined by `"|".join(...)`; the source presumes string entries
(anything else would raise `TypeError`), non-strings are totalised via their
string form. -/
def joinElem : JVal → String
  | .str s => s
  | v => pyStr v

/-- Faithful transcription of `normalize_doc_with_enrichment` from the source:
field fallback chains, price resolution with the empty-string rule and the
delivery-status override, and the order-channel branch. -/
def normalize_doc_with_enrichment (d : JVal) (m : List (String × JVal)) : Row :=
  let name := pyOr (pyGet d "item_product_name") (pyOr (pyGet d "name") (.str ""))
  let description :=
    match pyGet d "description" with
    | .obj kvs => pyGetD (.obj kvs) "shortDescription" (.str "")
    | _ => pyOr (pyGet d "description")
             (pyOr (pyGet d "item_short_description")
               (pyGetD d "item_product_short_description" (.str "")))
  let pic0 := pyOr (pyGet d "item_collateral_primaryimage") (pyOr (pyGet d "image") (.str ""))
  let product_pic :=
    if !truthy pic0 then
      match pyGet d "images" with
      | .arr (first :: _) =>
        match first with
        | .obj kvs =>
          pyOr (pyGet (.obj kvs) "item_collateral_primaryimage")
            (pyOr (pyGet (.obj kvs) "image") (.str ""))
        | _ => pic0
      | _ => pic0
    else pic0
  let priceVal0 := pyGetD d "item_location_pricing_salePrice" (pyGetD d "minSalePrice" .null)
  let priceVal := if isEmptyStr priceVal0 then .null else priceVal0
  let categoryPath :=
    match pyGet d "categoryPath_ss" with
    | .arr xs => JVal.str (String.intercalate "|" (xs.map joinElem))
    | _ => pyOr (pyGetD d "categoryPath_ss" (.str "")) (.str "")
  { id := pyGetD d "id" (.str "")
    item_number := itemNumberOf d
    name := name
    price := if deliveryStatusEmpty d then .null else priceVal
    listPrice := pyGetD d "item_location_pricing_listPrice" (.str "")
    product_pic := product_pic
    product_description := description
    deliveryStatus := deliveryStatusOf d
    availability := pyGetD d "item_location_availability" (.str "")
    review_count := pyGetD d "item_product_review_count" (pyGetD d "item_review_count" (.str ""))
    review_ratings :=
      pyGetD d "item_product_review_ratings"
        (pyGetD d "item_review_ratings" (pyGetD d "item_ratings" (.str "")))
    categoryPath := categoryPath
    order_channel := orderChannelOf d m }

/-! ### paginate_api

The search server is modelled as a genuine finite document store: a list `L`
of documents served in offset order, plus the `numFound` value it declares on
every response (read by the source on the first page only).  The response to a
request at offset `start` with page size `rows` is `(L.drop start).take rows`.
`numFound` may freely misreport the true size `L.length` or be absent.
HTTP-level failures of the search endpoint abort pagination in the source
(`RuntimeError`) and are outside this model, which covers the successful-page
behaviour the claims quantify over. -/

/-- One server page at an offset. -/
def pageAt (L : List α) (rows start : Nat) : List α := (L.drop start).take rows

/-- The pagination loop of `paginate_api`, returning the accumulated documents
and the number of page requests issued.  Termination: the loop only recurses
after a full page (`docs.length = rows` with `docs` nonempty), which forces
`start + rows ≤ L.length`. -/
def paginate_go (L : List α) (numFound : Option Nat) (rows : Nat)
    (start : Nat) (acc : List α) (reqs : Nat) : List α × Nat :=
  let docs := pageAt L rows start
  if hd : docs.isEmpty then (acc, reqs + 1)
  else
    let acc2 := acc ++ docs
    if (numFound.map fun t => decide (t ≤ acc2.length)).getD false then (acc2, reqs + 1)
    else if hs : docs.length < rows then (acc2, reqs + 1)
    else paginate_go L numFound rows (start + rows) acc2 (reqs + 1)
termination_by L.length - start
decreasing_by
  have hlen : docs.length = min rows (L.length - start) := by
    simp [docs, pageAt]
  have hne : docs ≠ [] := by simpa [List.isEmpty_iff] using hd
  have hpos : 0 < docs.length := List.length_pos.mpr hne
  omega

/-- The source's `paginate_api` (documents plus request count); offset starts
at 0 as in the configured search URL. -/
def paginate_api (L : List α) (numFound : Option Nat) (rows : Nat) : List α × Nat :=
  paginate_go L numFound rows 0 [] 0

/-! ### fetch_products_graphql -/

/-- `str(entry.get("itemNumber") or "")`, the key derived from one
catalog/fulfillment entry. -/
def itemNumKey (c : JVal) : String := pyStr (pyOr (pyGet c "itemNumber") (.str ""))

/-- Python `out[k] = v` on a string-keyed dict modelled as an association
list: overwrite in place, else append. -/
def setKey (m : List (String × JVal)) (k : String) (v : JVal) : List (String × JVal) :=
  if m.any fun kv => kv.1 = k then m.map fun kv => if kv.1 = k then (k, v) else kv
  else m ++ [(k, v)]

/-- The guarded insert `if itemnum and itemnum not in out: out[itemnum] = ...`. -/
def addIfAbsent (m : List (String × JVal)) (k : String) (v : JVal) : List (String × JVal) :=
  if m.any fun kv => kv.1 = k then m else m ++ [(k, v)]

/-- The identifier-to-payload map built from one GraphQL `products` value:
keys from top-level `catalogData`, then `childData.catalogData`, then
`fulfillmentData` (first occurrence winning), every key mapped to the whole
`products` value. -/
def buildProductMap (products : JVal) : List (String × JVal) :=
  let out := (topCats products).foldl
    (fun m c => let k := itemNumKey c; if k.isEmpty then m else setKey m k products) []
  let out2 := (childCats products).foldl
    (fun m c => let k := itemNumKey c; if k.isEmpty then m else addIfAbsent m k products) out
  (fulfills products).foldl
    (fun m f => let k := itemNumKey f; if k.isEmpty then m else addIfAbsent m k products) out2

/-- `j.get("data", {}).get("products") or {}`. -/
def productsOf (body : JVal) : JVal :=
  pyOr (pyGet (pyGetD body "data" (.obj [])) "products") (.obj [])

/-- Python `"errors" in j`: the response object has an `errors` key. -/
def bodyHasErrors (body : JVal) : Bool := (jget body "errors").isSome

/-- What one HTTP attempt of the GraphQL POST produces before retry handling:
either a transport-level failure (connection/timeout — `requests` raises a
`RequestException`), or a well-formed response with a status and JSON body. -/
inductive AttemptResult where
  | transport
  | http (status : Nat) (body : JVal)

/-- The exceptions the modelled fetch can raise.  Both are subclasses of
`requests.exceptions.RequestException` in the source: transport errors
directly, and `HTTPError` via `r.raise_for_status()` on a non-200 status. -/
inductive FetchErr where
  | requestException
  | httpError (status : Nat)
  deriving DecidableEq

/-- Tenacity's retry predicate `retry_if_exception_type(RequestException)`:
true for every exception this model can produce, because `HTTPError`
derives from `RequestException`. -/
def isRequestException : FetchErr → Bool
  | .requestException => true
  | .httpError _ => true

/-- The body of `fetch_products_graphql` for one attempt: a non-200 status
reaches `r.raise_for_status()`, which raises `HTTPError` exactly for the
4xx/5xx range; any other status falls through to JSON handling, where a body
carrying `errors` returns the empty mapping and otherwise the identifier map
is built from `data.products`.  The `http` constructor carries an
already-parsed JSON body; responses whose body fails to parse are outside
this model. -/
def fetchOnce : AttemptResult → Except FetchErr (List (String × JVal))
  | .transport => .error .requestException
  | .http s body =>
    if 400 ≤ s ∧ s < 600 ∧ s ≠ 200 then .error (.httpError s)
    else
      if bodyHasErrors body then .ok [] else .ok (buildProductMap (productsOf body))

/-- Tenacity's `stop_after_attempt(3)` loop over a behaviour `beh` giving the
outcome of each successive attempt: retry on a `RequestException` while
attempts remain, and report the result together with the number of attempts
consumed. -/
def fetchRetryGo (beh : Nat → AttemptResult) (k remaining : Nat) :
    Except FetchErr (List (String × JVal)) × Nat :=
  match fetchOnce (beh k) with
  | .ok m => (.ok m, k + 1)
  | .error e =>
    match remaining with
    | 0 => (.error e, k + 1)
    | r + 1 => if isRequestException e then fetchRetryGo beh (k + 1) r else (.error e, k + 1)

/-- `fetch_products_graphql` under its `@retry` decorator: up to 3 attempts. -/
def fetch_products_graphql (beh : Nat → AttemptResult) :
    Except FetchErr (List (String × JVal)) × Nat :=
  fetchRetryGo beh 0 2

/-- Python `dict.update`: merge the fetched mapping into the accumulator. -/
def dictUpdate (acc m : List (String × JVal)) : List (String × JVal) :=
  m.foldl (fun a kv => setKey a kv.1 kv.2) acc

/-- One iteration of the batch loop in `write_snapshot_csv_enriched`: the
`try` merges a successful mapping, the blanket `except Exception` logs and
leaves the accumulator unchanged. -/
def processBatch (acc : List (String × JVal)) (beh : Nat → AttemptResult) :
    List (String × JVal) :=
  match (fetch_products_graphql beh).1 with
  | .ok m => dictUpdate acc m
  | .error _ => acc

/-- The whole enrichment phase over the batches of one run; it is a total
function, so no batch outcome can abort the run. -/
def enrichAll (behs : List (Nat → AttemptResult)) : List (String × JVal) :=
  behs.foldl processBatch []

/-! ### run_sync -/

/-- PAGE_ROWS from the configuration. -/
def PAGE_ROWS : Nat := 100

/-- Environment of one `run_sync` call: the status of the initial probe, the
status of the re-probe after an interactive cookie refresh, and the search
server content served to `paginate_api`. -/
structure RunEnv where
  probe1 : Nat
  probe2 : Nat
  pages : List JVal
  numFound : Option Nat

/-- Outcome of `run_sync`: abort via `SystemExit` when authorization fails
twice, or completion with the paginated documents. -/
inductive RunOutcome where
  | abortedAuth
  | completed (docs : List JVal)

/-- Observable trace of one `run_sync` call: its outcome, how many interactive
credential refreshes ran, and how many times `paginate_api` was entered. -/
structure RunTrace where
  outcome : RunOutcome
  refreshCalls : Nat
  paginateCalls : Nat

/-- The control flow of `run_sync`: probe, at most one refresh-and-reprobe,
then a single call to `paginate_api`.  Nothing in the source re-enters the
refresh path after pagination starts. -/
def run_sync (env : RunEnv) : RunTrace :=
  if env.probe1 = 200 then
    { outcome := .completed (paginate_api env.pages env.numFound PAGE_ROWS).1
      refreshCalls := 0
      paginateCalls := 1 }
  else if env.probe2 = 200 then
    { outcome := .completed (paginate_api env.pages env.numFound PAGE_ROWS).1
      refreshCalls := 1
      paginateCalls := 1 }
  else
    { outcome := .abortedAuth, refreshCalls := 1, paginateCalls := 0 }

/-! ### compute_deltas

Snapshots enter `compute_deltas` in string form: the previous snapshot is read
back with `dtype=str` and `fillna("")`, the current one is `fillna("")`-ed and
each value passes through `str(...)` before comparison, so a snapshot row is
modelled as its `id` plus string-valued columns.  `set_index("id")` makes the
id the index and removes it from the columns, hence `row.get("id", "")` is
always `""` inside the column loop. -/

/-- CSV_FIELDS from the configuration. -/
def CSV_FIELDS : List String :=
  ["id", "item_number", "name", "price", "listPrice", "product_pic",
   "product_description", "deliveryStatus", "availability", "review_count",
   "review_ratings", "categoryPath", "order_channel"]

/-- A snapshot row after string coercion: its id (the index) and the
remaining columns. -/
structure SnapRec where
  id : String
  fields : List (String × String)
  deriving DecidableEq, Inhabited

/-- Column access `row.get(col, "")` on the id-indexed row dict: the id
column was consumed by `set_index` and reads as the default. -/
def colGet (r : SnapRec) (c : String) : String :=
  if c = "id" then "" else (r.fields.lookup c).getD ""

/-- `df.loc[pid]` for an id-unique snapshot: the row with that id. -/
def lookupRec (s : List SnapRec) (i : String) : SnapRec :=
  (s.find? fun r => r.id = i).getD default

/-- The distinct index values, `set(df.index)`. -/
def snapIds (s : List SnapRec) : List String := (s.map fun r => r.id).dedup

/-- Lexicographic code-point comparison on character lists, as Python
compares strings. -/
def charListLe : List Char → List Char → Bool
  | [], _ => true
  | _ :: _, [] => false
  | a :: as, b :: bs =>
    if a.toNat < b.toNat then true
    else if b.toNat < a.toNat then false
    else charListLe as bs

/-- Python `a <= b` on strings. -/
def strLe (a b : String) : Bool := charListLe a.data b.data

/-- Ordered insertion used to model Python `sorted`. -/
def insertSorted (a : String) : List String → List String
  | [] => [a]
  | b :: t => if strLe a b then a :: b :: t else b :: insertSorted a t

/-- Python `sorted` on strings: a stable ascending sort (insertion sort, which
agrees with Python's stable sort on the duplicate-free index sets it is
applied to). -/
def pysorted (l : List String) : List String := l.foldr insertSorted []

/-- One entry of `changed_rows`: the id, the per-field diffs (field, old, new)
in CSV_FIELDS order, and the current name. -/
structure ChangedEntry where
  id : String
  diffs : List (String × String × String)
  name : String
  deriving DecidableEq, Inhabited

/-- The per-id diff list `{col: {"old": pv, "new": nv} for differing col}`. -/
def diffsFor (prevS newS : List SnapRec) (pid : String) : List (String × String × String) :=
  CSV_FIELDS.filterMap fun c =>
    let pv := colGet (lookupRec prevS pid) c
    let nv := colGet (lookupRec newS pid) c
    if pv ≠ nv then some (c, pv, nv) else none

/-- Result of `compute_deltas`: the three id/record sets and, for each of the
three output files, `some rows` when the table is written and `none` when any
pre-existing file is deleted instead. -/
structure DeltaResult where
  addedIds : List String
  removedIds : List String
  changed : List ChangedEntry
  addedFile : Option (List SnapRec)
  removedFile : Option (List SnapRec)
  changedFile : Option (List ChangedEntry)
  deriving DecidableEq

/-- Faithful model of `compute_deltas`: set differences and intersection of
the id index sets (sorted, as in the source), field-by-field string
comparison on the common ids, and per-set file writes with deletion of any
pre-existing file when a set is empty.  `none` as previous snapshot is the
missing-`prev_path` branch. -/
def compute_deltas (newS : List SnapRec) (prev? : Option (List SnapRec)) : DeltaResult :=
  match prev? with
  | none => ⟨[], [], [], none, none, none⟩
  | some prevS =>
    let prevIds := snapIds prevS
    let newIds := snapIds newS
    let addedIds := pysorted (newIds.filter fun i => !prevIds.contains i)
    let removedIds := pysorted (prevIds.filter fun i => !newIds.contains i)
    let common := pysorted (prevIds.filter fun i => newIds.contains i)
    let changed := common.filterMap fun pid =>
      let diffs := diffsFor prevS newS pid
      if diffs.isEmpty then none
      else some ⟨pid, diffs, colGet (lookupRec newS pid) "name"⟩
    { addedIds := addedIds
      removedIds := removedIds
      changed := changed
      addedFile := if addedIds.isEmpty then none else some (addedIds.map (lookupRec newS))
      removedFile := if removedIds.isEmpty then none else some (removedIds.map (lookupRec prevS))
      changedFile := if changed.isEmpty then none else some changed }

/-! ### spec-side definition for price refinement -/

/-- True for every value except `null`. -/
def notNull : JVal → Bool
  | .null => false
  | _ => true

/-- Modelled from the spec's words, for comparison with the source behaviour:
"otherwise the first enrichment payload price found" — the first non-null
price in the payload, scanning `catalogData[..].priceData.price`, then
`childData.catalogData[..].priceData.price`, then `fulfillmentData[..].price`. -/
def specFirstEnrichmentPrice (p : JVal) : Option JVal :=
  (((topCats p).map fun c => pyGet (pyGet c "priceData") "price") ++
   ((childCats p).map fun c => pyGet (pyGet c "priceData") "price") ++
   ((fulfills p).map fun f => pyGet f "price")).find? notNull

/-- Any channel signal inside an enrichment payload: an explicit phrase
attribute or a warehouse fulfillment indicator.  The source never reads
`programTypes`, so program-type tags are irrelevant to the classifier. -/
def payloadChannelSignals (p : JVal) : Bool :=
  onlineAttr p || warehouseAttr p || warehouseFulfill p

/-- Channel signal carried by the document badge (delivery-status text). -/
def docBadgeSignal (d : JVal) : Bool :=
  containsSubstr "online only" (dsLowOf d) || containsSubstr "warehouse only" (dsLowOf d)

/-! ### concrete inputs used by counterexamples and witnesses -/

/-- Document with an empty sale-price string, a verified delivery status, and
an enrichment join key. -/
def docEmptySale : JVal :=
  .obj [("id", .str "1"), ("item_number", .str "11"),
        ("item_location_pricing_salePrice", .str ""),
        ("deliveryStatus", .str "In Stock")]

/-- Enrichment payload for item 11 carrying a price. -/
def payloadWithPrice : JVal :=
  .obj [("catalogData", .arr [.obj [("itemNumber", .str "11"),
        ("priceData", .obj [("price", .str "9.99")])]])]

/-- Enrichment map joining item 11 to `payloadWithPrice`. -/
def mapWithPrice : List (String × JVal) := [("11", payloadWithPrice)]

/-- Document whose delivery-status badge reads "Online Only". -/
def docOnlineBadge : JVal :=
  .obj [("id", .str "1"), ("item_number", .str "11"),
        ("deliveryStatus", .str "Online Only")]

/-- Enrichment payload for item 11 with no channel signal at all. -/
def payloadNoSignal : JVal :=
  .obj [("catalogData", .arr [.obj [("itemNumber", .str "11")]])]

/-- Enrichment map joining item 11 to the signal-free payload. -/
def mapNoSignal : List (String × JVal) := [("11", payloadNoSignal)]

/-- Document with a non-empty sale price but no delivery-status field. -/
def docNoDelivery : JVal :=
  .obj [("id", .str "7"), ("item_number", .str "77"),
        ("item_location_pricing_salePrice", .str "9.99")]

/-- Batch payload with two items: item 11 carries an explicit online-only
attribute, item 22 carries nothing. -/
def batchPayload : JVal :=
  .obj [("catalogData", .arr [
    .obj [("itemNumber", .str "11"),
          ("attributes", .arr [.obj [("key", .str "Features"),
                                     ("value", .str "Available Online Only")]])],
    .obj [("itemNumber", .str "22")]])]

/-- Document for the signal-free batch-mate, item 22. -/
def docBatchMate : JVal :=
  .obj [("item_number", .str "22"), ("deliveryStatus", .str "In Stock")]

/-- Whole-batch value the built map associates with item 11. -/
def batchVal11 : JVal := ((buildProductMap batchPayload).lookup "11").getD .null

/-- Whole-batch value the built map associates with item 22. -/
def batchVal22 : JVal := ((buildProductMap batchPayload).lookup "22").getD .null

/-- GraphQL body whose first attempt yields HTTP 500 and whose second attempt
yields a clean 200 carrying `batchPayload`. -/
def behRetryCex : Nat → AttemptResult := fun n =>
  if n = 0 then .http 500 .null
  else .http 200 (.obj [("data", .obj [("products", batchPayload)])])

/-- Behaviour whose every attempt fails at the transport level. -/
def behAllTransport : Nat → AttemptResult := fun _ => .transport

/-- Scenario snapshots of the specification: previous run had ids 1 and 3,
the current run has id 1 with a changed price and a new id 2. -/
def prevScenario : List SnapRec :=
  [⟨"1", [("name", "A"), ("price", "5")]⟩, ⟨"3", [("name", "C"), ("price", "7")]⟩]

/-- Current snapshot of the scenario. -/
def newScenario : List SnapRec :=
  [⟨"1", [("name", "A"), ("price", "6")]⟩, ⟨"2", [("name", "B"), ("price", "3")]⟩]

/-! ## Theorems -/

/-- C2 (counterexample).  The claim "otherwise [the price] is the first price
found in the document's enrichment payload" is false: for a document with an
empty sale-price field and an enrichment payload carrying the price "9.99",
the normalizer outputs the absent marker, not the enrichment price. -/
theorem price_enrichment_fallback_cex :
    (normalize_doc_with_enrichment docEmptySale mapWithPrice).price = .null ∧
    specFirstEnrichmentPrice payloadWithPrice = some (.str "9.99") ∧
    JVal.null ≠ JVal.str "9.99" := by
  refine ⟨rfl, rfl, ?_⟩
  intro h
  exact JVal.noConfusion h

/-- C2 (amended).  The normalized price is resolved from the primary document
alone: the sale-price field, falling back to the document's `minSalePrice`
field only when the sale-price key is absent, with an empty string mapped to
the absent marker and the whole value forced absent when the delivery status
is empty or absent; the enrichment map is never consulted for the price. -/
theorem price_resolution (d : JVal) (m m' : List (String × JVal)) :
    (normalize_doc_with_enrichment d m).price =
      (if deliveryStatusEmpty d then .null
       else if isEmptyStr (pyGetD d "item_location_pricing_salePrice"
                            (pyGetD d "minSalePrice" .null)) then .null
       else pyGetD d "item_location_pricing_salePrice" (pyGetD d "minSalePrice" .null)) ∧
    (normalize_doc_with_enrichment d m).price = (normalize_doc_with_enrichment d m').price := by
  constructor
  · simp only [normalize_doc_with_enrichment]
  · rfl

/-- C5.  The order channel is a pure function of the document and enrichment
content: it is computed by `orderChannelOf`, it depends only on the payload
looked up for the document's item number and on the document's
delivery-status value, and whenever neither an "online only"/"warehouse
only" phrase (also through the `str()` display of container attribute
values) nor a warehouse fulfillment signal occurs in the looked-up payload,
the document badge carries no phrase either, and the delivery-status value
is textual (so the badge branch runs without raising), the result is the
undecided category "any" — also when the classifier aborts on a malformed
entry, which the normalizer's `except` maps to the same undecided value. -/
theorem order_channel_pure_default_any (d : JVal) (m : List (String × JVal))
    (hp : ((enrichmentOf d m).map payloadChannelSignals).getD false = false)
    (hds : deliveryStatusTextSafe d = true)
    (hd : docBadgeSignal d = false) :
    (normalize_doc_with_enrichment d m).order_channel = orderChannelOf d m ∧
    (∀ d' m', enrichmentOf d' m' = enrichmentOf d m →
      deliveryStatusOf d' = deliveryStatusOf d →
      orderChannelOf d' m' = orderChannelOf d m) ∧
    (normalize_doc_with_enrichment d m).order_channel = "any" := by
  have hpure : ∀ d' m', enrichmentOf d' m' = enrichmentOf d m →
      deliveryStatusOf d' = deliveryStatusOf d →
      orderChannelOf d' m' = orderChannelOf d m := by
    intro d' m' he hdsq
    unfold orderChannelOf
    rw [he]
    cases enrichmentOf d m with
    | some p => rfl
    | none =>
      unfold badgeChannelOf dsLowOf
      rw [hdsq]
  refine ⟨rfl, hpure, ?_⟩
  show orderChannelOf d m = "any"
  unfold orderChannelOf
  cases he : enrichmentOf d m with
  | some p =>
    rw [he] at hp
    simp only [Option.map, Option.getD, payloadChannelSignals,
      Bool.or_eq_false_iff] at hp
    obtain ⟨⟨ho, hw⟩, hf⟩ := hp
    by_cases hr : determineRaises p = true
    · simp [determine_order_channel_from_catalog_payload, hr]
    · simp [determine_order_channel_from_catalog_payload, hr, ho, hw, hf]
  | none =>
    simp only [docBadgeSignal, Bool.or_eq_false_iff] at hd
    simp [badgeChannelOf, hd.1, hd.2]

/-- C5 (witness).  A document with a plain delivery status and no enrichment
entry classifies as "any". -/
theorem order_channel_pure_default_any_witness :
    (normalize_doc_with_enrichment docBatchMate []).order_channel =
      orderChannelOf docBatchMate [] ∧
    (∀ d' m', enrichmentOf d' m' = enrichmentOf docBatchMate [] →
      deliveryStatusOf d' = deliveryStatusOf docBatchMate →
      orderChannelOf d' m' = orderChannelOf docBatchMate []) ∧
    (normalize_doc_with_enrichment docBatchMate []).order_channel = "any" :=
  order_channel_pure_default_any docBatchMate [] rfl rfl rfl

/-- C6 (counterexample).  For a document whose enrichment payload is present
but undecided ("any") while its own delivery-status badge says "Online Only",
the source keeps "any": it does not fall back to the document badge. -/
theorem badge_fallback_cex :
    (normalize_doc_with_enrichment docOnlineBadge mapNoSignal).order_channel = "any" ∧
    badgeChannelOf docOnlineBadge = "online_only" ∧
    (normalize_doc_with_enrichment docOnlineBadge mapNoSignal).order_channel ≠
      "online_only" := by
  refine ⟨rfl, rfl, ?_⟩
  intro h
  have : ("any" : String) = "online_only" := h
  simp at this

/-- C6 (amended).  When an enrichment payload is present for the document's
item number, the payload classification is final — even when it is the
undecided "any"; the badge fallback on the primary document is used exactly
when no enrichment payload is available. -/
theorem badge_fallback_only_without_payload (d : JVal) (m : List (String × JVal)) :
    (∀ p, enrichmentOf d m = some p →
      (normalize_doc_with_enrichment d m).order_channel =
        determine_order_channel_from_catalog_payload p) ∧
    (enrichmentOf d m = none →
      (normalize_doc_with_enrichment d m).order_channel = badgeChannelOf d) := by
  constructor
  · intro p hp
    show orderChannelOf d m = _
    unfold orderChannelOf
    rw [hp]
  · intro hn
    show orderChannelOf d m = _
    unfold orderChannelOf
    rw [hn]

/-- C6 (witness).  With the payload present the channel equals the payload
classification; with it absent the channel equals the badge value. -/
theorem badge_fallback_only_without_payload_witness :
    (normalize_doc_with_enrichment docOnlineBadge mapNoSignal).order_channel =
      determine_order_channel_from_catalog_payload payloadNoSignal ∧
    (normalize_doc_with_enrichment docOnlineBadge []).order_channel =
      badgeChannelOf docOnlineBadge :=
  ⟨(badge_fallback_only_without_payload docOnlineBadge mapNoSignal).1 payloadNoSignal rfl,
   (badge_fallback_only_without_payload docOnlineBadge []).2 rfl⟩

/-- C7.  Whenever the document's delivery-status field is absent, null, or a
whitespace-only string, the normalized price is the absent marker, whatever
the sale price or the enrichment content. -/
theorem delivery_status_gates_price (d : JVal) (m : List (String × JVal))
    (h : deliveryStatusEmpty d = true) :
    (normalize_doc_with_enrichment d m).price = .null := by
  simp only [normalize_doc_with_enrichment, h]
  rfl

/-- C7 (witness).  A document with sale price "9.99" but no delivery-status
field gets the absent price marker. -/
theorem delivery_status_gates_price_witness :
    pyGet docNoDelivery "item_location_pricing_salePrice" = .str "9.99" ∧
    (normalize_doc_with_enrichment docNoDelivery []).price = .null :=
  ⟨rfl, delivery_status_gates_price docNoDelivery [] rfl⟩

/-! ### helper lemmas for the retry model -/

/-- Both modelled fetch errors are `RequestException`s (HTTPError derives
from RequestException in `requests`). -/
theorem isRequestException_true (e : FetchErr) : isRequestException e = true := by
  cases e <;> rfl

/-- Attempt numbering grows through the retry loop. -/
theorem fetchRetryGo_snd_ge (beh : Nat → AttemptResult) (r k : Nat) :
    k + 1 ≤ (fetchRetryGo beh k r).2 := by
  induction r generalizing k with
  | zero =>
    unfold fetchRetryGo
    cases fetchOnce (beh k) <;> simp
  | succ r ih =>
    unfold fetchRetryGo
    cases fetchOnce (beh k) with
    | ok m => simp
    | error e =>
      simp only [isRequestException_true, if_true]
      have := ih (k + 1)
      omega

/-- The retry loop consumes at most `remaining + 1` further attempts. -/
theorem fetchRetryGo_snd_le (beh : Nat → AttemptResult) (r k : Nat) :
    (fetchRetryGo beh k r).2 ≤ k + r + 1 := by
  induction r generalizing k with
  | zero =>
    unfold fetchRetryGo
    cases fetchOnce (beh k) <;> simp
  | succ r ih =>
    unfold fetchRetryGo
    cases fetchOnce (beh k) with
    | ok m => simp
    | error e =>
      simp only [isRequestException_true, if_true]
      have := ih (k + 1)
      omega

/-- A failed attempt with attempts to spare moves the loop to the next
attempt: every modelled error is retryable. -/
theorem fetchRetryGo_error_step (beh : Nat → AttemptResult) (k r : Nat) (e : FetchErr)
    (h : fetchOnce (beh k) = .error e) :
    fetchRetryGo beh k (r + 1) = fetchRetryGo beh (k + 1) r := by
  conv_lhs => rw [fetchRetryGo.eq_def]
  rw [h]
  simp [isRequestException_true]

/-- C3 (counterexample).  The claim that a batch attempt "is retried only on
a network-transport-level error" and that "a well-formed non-200 HTTP
response yields an empty mapping for that batch" is false: when the first
attempt answers HTTP 500 and the second answers 200 with data, the source
performs a second attempt (the 500's `HTTPError` is a `RequestException`,
hence retried) and the batch mapping is the non-empty one of the retry. -/
theorem enrichment_retry_cex :
    (fetch_products_graphql behRetryCex).2 = 2 ∧
    processBatch [] behRetryCex = [("11", batchPayload), ("22", batchPayload)] ∧
    ([("11", batchPayload), ("22", batchPayload)] : List (String × JVal)) ≠ [] := by
  refine ⟨rfl, rfl, ?_⟩
  intro h
  exact List.noConfusion h

/-- C3 (amended).  A batch fetch attempt is retried, up to 3 attempts, on any
`RequestException`: transport errors and 4xx/5xx responses alike (the latter
because `raise_for_status` raises `HTTPError`, a `RequestException`
subclass).  A 200 response whose body carries application-level errors
returns the empty mapping at the first attempt without retry.  An error
surviving all attempts propagates out of the fetch but is swallowed by the
per-batch loop, leaving the accumulator untouched, so no batch response can
abort the run. -/
theorem enrichment_retry_policy (beh : Nat → AttemptResult) :
    (beh 0 = .transport → 2 ≤ (fetch_products_graphql beh).2) ∧
    (∀ s b, beh 0 = .http s b → 400 ≤ s → s < 600 → 2 ≤ (fetch_products_graphql beh).2) ∧
    (∀ b, beh 0 = .http 200 b → bodyHasErrors b = true →
      fetch_products_graphql beh = (.ok [], 1)) ∧
    (fetch_products_graphql beh).2 ≤ 3 ∧
    (∀ acc e, (fetch_products_graphql beh).1 = .error e → processBatch acc beh = acc) := by
  refine ⟨?_, ?_, ?_, ?_, ?_⟩
  · intro h
    have hstep : fetch_products_graphql beh = fetchRetryGo beh 1 1 := by
      unfold fetch_products_graphql
      exact fetchRetryGo_error_step beh 0 1 .requestException (by rw [h]; rfl)
    rw [hstep]
    exact fetchRetryGo_snd_ge beh 1 1
  · intro s b h h4 h6
    have hs : 400 ≤ s ∧ s < 600 ∧ s ≠ 200 := ⟨h4, h6, by omega⟩
    have herr : fetchOnce (beh 0) = .error (.httpError s) := by
      rw [h]
      simp [fetchOnce, hs.1, hs.2.1, hs.2.2]
    have hstep : fetch_products_graphql beh = fetchRetryGo beh 1 1 :=
      fetchRetryGo_error_step beh 0 1 (.httpError s) herr
    rw [hstep]
    exact fetchRetryGo_snd_ge beh 1 1
  · intro b h he
    unfold fetch_products_graphql
    conv_lhs => rw [fetchRetryGo.eq_def]
    rw [h]
    simp [fetchOnce, he]
  · exact fetchRetryGo_snd_le beh 2 0
  · intro acc e h
    simp [processBatch, h]

/-- C3 (witness).  A behaviour whose every attempt is a transport failure:
its fetch is retried past the first attempt, stays within three attempts,
and its batch leaves the accumulated map unchanged. -/
theorem enrichment_retry_policy_witness :
    2 ≤ (fetch_products_graphql behAllTransport).2 ∧
    (fetch_products_graphql behAllTransport).2 ≤ 3 ∧
    processBatch [("k", JVal.null)] behAllTransport = [("k", JVal.null)] := by
  refine ⟨(enrichment_retry_policy behAllTransport).1 rfl,
    (enrichment_retry_policy behAllTransport).2.2.2.1,
    (enrichment_retry_policy behAllTransport).2.2.2.2 [("k", JVal.null)]
      .requestException rfl⟩

/-- C1 (counterexample).  A run whose probe succeeds and whose very first
page is empty completes with zero documents after exactly one pagination
pass and zero reactive refreshes — the claimed refresh-and-retry of
pagination does not exist in the source. -/
theorem run_zero_first_page_cex :
    run_sync ⟨200, 200, [], none⟩ = ⟨.completed [], 0, 1⟩ ∧
    ¬((run_sync ⟨200, 200, [], none⟩).refreshCalls = 1 ∧
      2 ≤ (run_sync ⟨200, 200, [], none⟩).paginateCalls) := by
  have h : run_sync ⟨200, 200, [], none⟩ = ⟨.completed [], 0, 1⟩ := by
    simp [run_sync, paginate_api, paginate_go, pageAt, PAGE_ROWS]
  refine ⟨h, ?_⟩
  rw [h]
  rintro ⟨h1, h2⟩
  simp at h1

/-- C1 (amended).  A zero-result first page is not an error: pagination stops
immediately, the run completes with an empty document list, no reactive
credential refresh happens and pagination is not retried (a refresh occurs
only when the initial probe fails, before pagination starts). -/
theorem run_zero_first_page_no_refresh (env : RunEnv)
    (h1 : env.probe1 = 200) (h2 : env.pages = []) :
    run_sync env = ⟨.completed [], 0, 1⟩ := by
  obtain ⟨p1, p2, pages, nf⟩ := env
  simp only at h1 h2
  subst h1 h2
  simp [run_sync, paginate_api, paginate_go, pageAt, PAGE_ROWS]

/-- C1 (witness).  A concrete environment with a successful probe and an
empty first page. -/
theorem run_zero_first_page_no_refresh_witness :
    run_sync ⟨200, 404, [], some 500⟩ = ⟨.completed [], 0, 1⟩ :=
  run_zero_first_page_no_refresh ⟨200, 404, [], some 500⟩ rfl rfl

/-! ### helper lemmas for the GraphQL map -/

/-- Members of `setKey m k v` come from `m` or carry the inserted value. -/
theorem mem_setKey (m : List (String × JVal)) (k : String) (v : JVal) :
    ∀ kv ∈ setKey m k v, kv ∈ m ∨ kv.2 = v := by
  intro kv hkv
  unfold setKey at hkv
  split at hkv
  · rcases List.mem_map.mp hkv with ⟨kv0, hkv0, heq⟩
    by_cases hk : kv0.1 = k
    · right
      rw [if_pos hk] at heq
      rw [← heq]
    · left
      rw [if_neg hk] at heq
      rw [← heq]
      exact hkv0
  · rcases List.mem_append.mp hkv with hm | hs
    · exact Or.inl hm
    · right
      rcases List.mem_singleton.mp hs with rfl
      rfl

/-- Members of `addIfAbsent m k v` come from `m` or carry the inserted value. -/
theorem mem_addIfAbsent (m : List (String × JVal)) (k : String) (v : JVal) :
    ∀ kv ∈ addIfAbsent m k v, kv ∈ m ∨ kv.2 = v := by
  intro kv hkv
  unfold addIfAbsent at hkv
  split at hkv
  · exact Or.inl hkv
  · rcases List.mem_append.mp hkv with hm | hs
    · exact Or.inl hm
    · right
      rcases List.mem_singleton.mp hs with rfl
      rfl

/-- A fold whose step only inserts the constant value `v` keeps every stored
value equal to `v`. -/
theorem foldl_value_invariant (v : JVal)
    (g : List (String × JVal) → JVal → List (String × JVal))
    (hg : ∀ m a kv, kv ∈ g m a → kv ∈ m ∨ kv.2 = v) :
    ∀ (l : List JVal) (init : List (String × JVal)),
      (∀ kv ∈ init, kv.2 = v) → ∀ kv ∈ l.foldl g init, kv.2 = v := by
  intro l
  induction l with
  | nil => intro init h kv hkv; exact h kv hkv
  | cons a t ih =>
    intro init h kv hkv
    refine ih (g init a) ?_ kv hkv
    intro kv2 hkv2
    rcases hg init a kv2 hkv2 with hm | hv
    · exact h kv2 hm
    · exact hv

/-- Every value stored in the built GraphQL map is the whole `products`
payload. -/
theorem buildProductMap_values (products : JVal) :
    ∀ kv ∈ buildProductMap products, kv.2 = products := by
  unfold buildProductMap
  intro kv hkv
  refine foldl_value_invariant products _ ?_ (fulfills products) _ ?_ kv hkv
  · intro m a kv2 hkv2
    dsimp at hkv2
    split at hkv2
    · exact Or.inl hkv2
    · exact mem_addIfAbsent m (itemNumKey a) products kv2 hkv2
  · intro kv2 hkv2
    refine foldl_value_invariant products _ ?_ (childCats products) _ ?_ kv2 hkv2
    · intro m a kv3 hkv3
      dsimp at hkv3
      split at hkv3
      · exact Or.inl hkv3
      · exact mem_addIfAbsent m (itemNumKey a) products kv3 hkv3
    · intro kv3 hkv3
      refine foldl_value_invariant products _ ?_ (topCats products) [] ?_ kv3 hkv3
      · intro m a kv4 hkv4
        dsimp at hkv4
        split at hkv4
        · exact Or.inl hkv4
        · exact mem_setKey m (itemNumKey a) products kv4 hkv4
      · intro kv4 hkv4
        exact absurd hkv4 (List.not_mem_nil kv4)

/-- A successful association-list lookup exhibits a member pair. -/
theorem lookup_mem_pair (l : List (String × JVal)) (k : String) (v : JVal)
    (h : l.lookup k = some v) : (k, v) ∈ l := by
  rcases List.lookup_eq_some_iff.mp h with ⟨l1, l2, rfl, hl⟩
  exact List.mem_append.mpr (Or.inr (List.mem_cons_self _ _))

/-- C10.  Whatever keys the enrichment fetch derives from a `products`
payload, each of them is associated with that one whole-batch payload — not
a per-item slice — so the channel classification input, and hence the
classification itself, is identical for all batch-mates. -/
theorem graphql_map_shares_whole_payload (products : JVal) (k1 k2 : String)
    (v1 v2 : JVal)
    (h1 : (buildProductMap products).lookup k1 = some v1)
    (h2 : (buildProductMap products).lookup k2 = some v2) :
    v1 = products ∧ v2 = products ∧
    determine_order_channel_from_catalog_payload v1 =
      determine_order_channel_from_catalog_payload v2 := by
  have hv1 : v1 = products :=
    buildProductMap_values products (k1, v1) (lookup_mem_pair _ _ _ h1)
  have hv2 : v2 = products :=
    buildProductMap_values products (k2, v2) (lookup_mem_pair _ _ _ h2)
  refine ⟨hv1, hv2, ?_⟩
  rw [hv1, hv2]

/-- C10 (witness).  In a batch where item 11 carries an explicit online-only
attribute and item 22 carries nothing, both keys map to the whole batch
payload and item 22 classifies as `online_only` through its batch-mate's
signal. -/
theorem graphql_map_shares_whole_payload_witness :
    (batchVal11 = batchPayload ∧ batchVal22 = batchPayload ∧
      determine_order_channel_from_catalog_payload batchVal11 =
        determine_order_channel_from_catalog_payload batchVal22) ∧
    determine_order_channel_from_catalog_payload batchVal22 = "online_only" ∧
    (normalize_doc_with_enrichment docBatchMate
      (buildProductMap batchPayload)).order_channel = "online_only" :=
  ⟨graphql_map_shares_whole_payload batchPayload "11" "22" batchVal11 batchVal22
      rfl rfl,
   rfl, rfl⟩

/-! ### helper lemmas for the delta model -/

/-- Membership through ordered insertion. -/
theorem mem_insertSorted (x a : String) (t : List String) :
    x ∈ insertSorted a t ↔ x = a ∨ x ∈ t := by
  induction t with
  | nil => simp [insertSorted]
  | cons b t ih =>
    by_cases h : strLe a b = true
    · simp [insertSorted, h]
    · simp only [insertSorted, h, if_false, Bool.false_eq_true, List.mem_cons, ih]
      tauto

/-- Sorting preserves membership. -/
theorem mem_pysorted (x : String) (l : List String) :
    x ∈ pysorted l ↔ x ∈ l := by
  induction l with
  | nil => simp [pysorted]
  | cons a t ih =>
    show x ∈ insertSorted a (pysorted t) ↔ _
    rw [mem_insertSorted]
    simp [ih]

/-- Membership in the distinct-id view of a snapshot. -/
theorem mem_snapIds (x : String) (s : List SnapRec) :
    x ∈ snapIds s ↔ x ∈ s.map fun r => r.id := List.mem_dedup

/-- Boolean set-membership test read back as membership. -/
theorem contains_eq_true_iff (l : List String) (x : String) :
    l.contains x = true ↔ x ∈ l := List.elem_iff

/-- The per-id diff list is empty exactly when every output field agrees
under string comparison. -/
theorem diffsFor_eq_nil_iff (prevS newS : List SnapRec) (pid : String) :
    diffsFor prevS newS pid = [] ↔
      ∀ c ∈ CSV_FIELDS, colGet (lookupRec prevS pid) c = colGet (lookupRec newS pid) c := by
  unfold diffsFor
  rw [List.filterMap_eq_nil_iff]
  constructor
  · intro h c hc
    have := h c hc
    by_cases hne : colGet (lookupRec prevS pid) c = colGet (lookupRec newS pid) c
    · exact hne
    · simp [hne] at this
  · intro h c hc
    simp [h c hc]

/-- C8.  Delta computation is idempotent: diffing a snapshot against itself
yields empty added, removed and changed sets, and all three output files are
deleted rather than written. -/
theorem compute_deltas_idempotent (X : List SnapRec) :
    compute_deltas X (some X) = ⟨[], [], [], none, none, none⟩ := by
  have hfil : ((snapIds X).filter fun i => !(snapIds X).contains i) = [] := by
    apply List.filter_eq_nil_iff.mpr
    intro a ha
    simpa using ha
  have hdiffs : ∀ pid, diffsFor X X pid = [] := by
    intro pid
    exact (diffsFor_eq_nil_iff X X pid).mpr fun c _ => rfl
  have hch : ∀ (l : List String),
      (l.filterMap fun pid =>
        if (diffsFor X X pid).isEmpty then none
        else some (⟨pid, diffsFor X X pid, colGet (lookupRec X pid) "name"⟩ : ChangedEntry)) = [] := by
    intro l
    apply List.filterMap_eq_nil_iff.mpr
    intro pid _
    rw [hdiffs pid]
    rfl
  simp only [compute_deltas]
  rw [hfil]
  rw [hch]
  rfl

/-- C9.  Added and removed are exactly the set differences of the id key
sets; an id is reported changed exactly when it is present in both snapshots
and some output field differs under string comparison; a changed entry
carries the per-field (field, old, new) diff list and the current name; and
each delta set is written as its own table exactly when non-empty, an empty
set deleting any pre-existing file instead.  The id-uniqueness hypotheses
delimit the modelled `DataFrame.loc` lookup. -/
theorem compute_deltas_characterization (newS prevS : List SnapRec)
    (hn : (newS.map fun r => r.id).Nodup) (hp : (prevS.map fun r => r.id).Nodup)
    (x : String) :
    (x ∈ (compute_deltas newS (some prevS)).addedIds ↔
      x ∈ newS.map (fun r => r.id) ∧ x ∉ prevS.map (fun r => r.id)) ∧
    (x ∈ (compute_deltas newS (some prevS)).removedIds ↔
      x ∈ prevS.map (fun r => r.id) ∧ x ∉ newS.map (fun r => r.id)) ∧
    ((∃ e ∈ (compute_deltas newS (some prevS)).changed, e.id = x) ↔
      x ∈ newS.map (fun r => r.id) ∧ x ∈ prevS.map (fun r => r.id) ∧
      ∃ c ∈ CSV_FIELDS, colGet (lookupRec prevS x) c ≠ colGet (lookupRec newS x) c) ∧
    (∀ e ∈ (compute_deltas newS (some prevS)).changed, e.id = x →
      e.diffs = diffsFor prevS newS x ∧ e.name = colGet (lookupRec newS x) "name") ∧
    ((compute_deltas newS (some prevS)).addedFile =
      if (compute_deltas newS (some prevS)).addedIds.isEmpty then none
      else some ((compute_deltas newS (some prevS)).addedIds.map (lookupRec newS))) ∧
    ((compute_deltas newS (some prevS)).removedFile =
      if (compute_deltas newS (some prevS)).removedIds.isEmpty then none
      else some ((compute_deltas newS (some prevS)).removedIds.map (lookupRec prevS))) ∧
    ((compute_deltas newS (some prevS)).changedFile =
      if (compute_deltas newS (some prevS)).changed.isEmpty then none
      else some (compute_deltas newS (some prevS)).changed) := by
  refine ⟨?_, ?_, ?_, ?_, rfl, rfl, rfl⟩
  · show x ∈ pysorted ((snapIds newS).filter fun i => !(snapIds prevS).contains i) ↔ _
    rw [mem_pysorted, List.mem_filter, mem_snapIds]
    constructor
    · rintro ⟨hm, hc⟩
      refine ⟨hm, fun hmem => ?_⟩
      rw [Bool.not_eq_eq_eq_not, Bool.not_true] at hc
      rw [contains_eq_true_iff _ x |>.mpr ((mem_snapIds x prevS).mpr hmem)] at hc
      exact Bool.noConfusion hc
    · rintro ⟨hm, hnm⟩
      refine ⟨hm, ?_⟩
      rw [Bool.not_eq_eq_eq_not, Bool.not_true]
      by_cases hc : (snapIds prevS).contains x = true
      · exact absurd ((mem_snapIds x prevS).mp ((contains_eq_true_iff _ x).mp hc)) hnm
      · simpa using hc
  · show x ∈ pysorted ((snapIds prevS).filter fun i => !(snapIds newS).contains i) ↔ _
    rw [mem_pysorted, List.mem_filter, mem_snapIds]
    constructor
    · rintro ⟨hm, hc⟩
      refine ⟨hm, fun hmem => ?_⟩
      rw [Bool.not_eq_eq_eq_not, Bool.not_true] at hc
      rw [contains_eq_true_iff _ x |>.mpr ((mem_snapIds x newS).mpr hmem)] at hc
      exact Bool.noConfusion hc
    · rintro ⟨hm, hnm⟩
      refine ⟨hm, ?_⟩
      rw [Bool.not_eq_eq_eq_not, Bool.not_true]
      by_cases hc : (snapIds newS).contains x = true
      · exact absurd ((mem_snapIds x newS).mp ((contains_eq_true_iff _ x).mp hc)) hnm
      · simpa using hc
  · show (∃ e ∈ (pysorted ((snapIds prevS).filter fun i => (snapIds newS).contains i)).filterMap
        (fun pid => if (diffsFor prevS newS pid).isEmpty then none
          else some (⟨pid, diffsFor prevS newS pid, colGet (lookupRec newS pid) "name"⟩ : ChangedEntry)),
        e.id = x) ↔ _
    constructor
    · rintro ⟨e, he, hid⟩
      rcases List.mem_filterMap.mp he with ⟨pid, hpid, hg⟩
      by_cases hemp : (diffsFor prevS newS pid).isEmpty = true
      · rw [if_pos hemp] at hg
        exact Option.noConfusion hg
      · rw [if_neg hemp] at hg
        have he2 := Option.some.inj hg
        have hpidx : pid = x := by
          rw [← hid, ← he2]
        subst hpidx
        rw [mem_pysorted, List.mem_filter] at hpid
        obtain ⟨hmp, hcn⟩ := hpid
        refine ⟨(mem_snapIds pid newS).mp ((contains_eq_true_iff _ pid).mp hcn),
          (mem_snapIds pid prevS).mp hmp, ?_⟩
        by_contra hall
        push_neg at hall
        have : diffsFor prevS newS pid = [] :=
          (diffsFor_eq_nil_iff prevS newS pid).mpr hall
        rw [this] at hemp
        exact hemp rfl
    · rintro ⟨hmn, hmp, c, hc, hne⟩
      have hnonnil : diffsFor prevS newS x ≠ [] := by
        intro hnil
        exact hne ((diffsFor_eq_nil_iff prevS newS x).mp hnil c hc)
      have hemp : (diffsFor prevS newS x).isEmpty = false := by
        cases hdl : diffsFor prevS newS x with
        | nil => exact absurd hdl hnonnil
        | cons a t => rfl
      refine ⟨⟨x, diffsFor prevS newS x, colGet (lookupRec newS x) "name"⟩, ?_, rfl⟩
      apply List.mem_filterMap.mpr
      refine ⟨x, ?_, by rw [hemp]; rfl⟩
      rw [mem_pysorted, List.mem_filter]
      exact ⟨(mem_snapIds x prevS).mpr hmp,
        (contains_eq_true_iff _ x).mpr ((mem_snapIds x newS).mpr hmn)⟩
  · intro e he hid
    rcases List.mem_filterMap.mp he with ⟨pid, hpid, hg⟩
    by_cases hemp : (diffsFor prevS newS pid).isEmpty = true
    · rw [if_pos hemp] at hg
      exact Option.noConfusion hg
    · rw [if_neg hemp] at hg
      have he2 := Option.some.inj hg
      have hpidx : pid = x := by rw [← hid, ← he2]
      subst hpidx
      rw [← he2]
      exact ⟨rfl, rfl⟩

/-- C9 (witness).  The specification's scenario: previous ids 1 and 3,
current ids 1 (price 5 → 6) and 2 ⇒ added = 2, removed = 3, changed = 1. -/
theorem compute_deltas_characterization_witness :
    "2" ∈ (compute_deltas newScenario (some prevScenario)).addedIds ∧
    "3" ∈ (compute_deltas newScenario (some prevScenario)).removedIds ∧
    (∃ e ∈ (compute_deltas newScenario (some prevScenario)).changed, e.id = "1") := by
  refine ⟨?_, ?_, ?_⟩
  · exact (compute_deltas_characterization newScenario prevScenario
      (by decide) (by decide) "2").1.mpr (by decide)
  · exact (compute_deltas_characterization newScenario prevScenario
      (by decide) (by decide) "3").2.1.mpr (by decide)
  · exact (compute_deltas_characterization newScenario prevScenario
      (by decide) (by decide) "1").2.2.1.mpr
      ⟨by decide, by decide, "price", by decide, by decide⟩

/-! ### helper lemmas for pagination bounds -/

/-- Request-count bound against a declared total: past an accumulator of
`acc.length` documents, at most `⌈(T - acc.length)/rows⌉ + 1` further page
requests are issued, because every non-final page contributes exactly `rows`
documents and the loop stops once the declared total is reached. -/
theorem paginate_go_reqs_le_total {α : Type} (L : List α) (T rows : Nat) :
    ∀ (start : Nat) (acc : List α) (reqs : Nat),
    (paginate_go L (some T) rows start acc reqs).2 ≤
      reqs + (T - acc.length + rows - 1) / rows + 1 := by
  intro start acc reqs
  induction start, acc, reqs using paginate_go.induct L (some T) rows with
  | case1 start acc reqs docs hd =>
    rw [paginate_go]
    simp only [hd]
    simp
  | case2 start acc reqs docs hd acc2 hnf =>
    rw [paginate_go]
    simp only [hd, hnf]
    simp
  | case3 start acc reqs docs hd acc2 hnf hs =>
    rw [paginate_go]
    simp only [hd, hnf, hs]
    simp
  | case4 start acc reqs docs hd acc2 hnf hs ih =>
    rw [paginate_go]
    simp only [hd, hnf, hs]
    show (paginate_go L (some T) rows (start + rows) (acc ++ pageAt L rows start)
        (reqs + 1)).2 ≤ reqs + (T - acc.length + rows - 1) / rows + 1
    have hd2 : ¬ (pageAt L rows start).isEmpty = true := hd
    have hs2 : ¬ (pageAt L rows start).length < rows := hs
    have hnf2 : ¬ (Option.map (fun t => decide (t ≤ (acc ++ pageAt L rows start).length))
        (some T)).getD false = true := hnf
    have ih2 : (paginate_go L (some T) rows (start + rows) (acc ++ pageAt L rows start)
        (reqs + 1)).2 ≤ reqs + 1 + (T - (acc ++ pageAt L rows start).length + rows - 1) / rows + 1 := ih
    have hlen : (pageAt L rows start).length = min rows (L.length - start) := by simp [pageAt]
    have hfull : (pageAt L rows start).length = rows := by omega
    have hpos : 0 < rows := by
      rcases Nat.eq_zero_or_pos (pageAt L rows start).length with h0 | hgt
      · exact absurd (by rw [List.isEmpty_iff]; exact List.eq_nil_of_length_eq_zero h0) hd2
      · omega
    have hTgt : ¬ T ≤ (acc ++ pageAt L rows start).length := by
      simpa using hnf2
    have hlapp : (acc ++ pageAt L rows start).length = acc.length + rows := by
      rw [List.length_append, hfull]
    rw [hlapp] at ih2 hTgt
    have h1 : T - (acc.length + rows) + rows - 1 = T - acc.length - 1 := by omega
    have h2 : T - acc.length + rows - 1 = T - acc.length - 1 + rows := by omega
    rw [h1] at ih2
    rw [h2, Nat.add_div_right _ hpos]
    omega

/-- Request-count bound against the true store size: the loop recurses only
on full pages, each consuming `rows` of the at most `L.length - start`
remaining documents. -/
theorem paginate_go_reqs_le_size {α : Type} (L : List α) (nf : Option Nat) (rows : Nat) :
    ∀ (start : Nat) (acc : List α) (reqs : Nat),
    (paginate_go L nf rows start acc reqs).2 ≤
      reqs + (L.length - start + rows - 1) / rows + 1 := by
  intro start acc reqs
  induction start, acc, reqs using paginate_go.induct L nf rows with
  | case1 start acc reqs docs hd =>
    rw [paginate_go]
    simp only [hd]
    simp
  | case2 start acc reqs docs hd acc2 hnf =>
    rw [paginate_go]
    simp only [hd, hnf]
    simp
  | case3 start acc reqs docs hd acc2 hnf hs =>
    rw [paginate_go]
    simp only [hd, hnf, hs]
    simp
  | case4 start acc reqs docs hd acc2 hnf hs ih =>
    rw [paginate_go]
    simp only [hd, hnf, hs]
    show (paginate_go L nf rows (start + rows) (acc ++ pageAt L rows start)
        (reqs + 1)).2 ≤ reqs + (L.length - start + rows - 1) / rows + 1
    have hd2 : ¬ (pageAt L rows start).isEmpty = true := hd
    have hs2 : ¬ (pageAt L rows start).length < rows := hs
    have ih2 : (paginate_go L nf rows (start + rows) (acc ++ pageAt L rows start)
        (reqs + 1)).2 ≤ reqs + 1 + (L.length - (start + rows) + rows - 1) / rows + 1 := ih
    have hlen : (pageAt L rows start).length = min rows (L.length - start) := by simp [pageAt]
    have hfull : (pageAt L rows start).length = rows := by omega
    have hpos : 0 < rows := by
      rcases Nat.eq_zero_or_pos (pageAt L rows start).length with h0 | hgt
      · exact absurd (by rw [List.isEmpty_iff]; exact List.eq_nil_of_length_eq_zero h0) hd2
      · omega
    have hroom : rows ≤ L.length - start := by omega
    have h1 : L.length - (start + rows) + rows - 1 = L.length - start - 1 := by omega
    have h2 : L.length - start + rows - 1 = L.length - start - 1 + rows := by omega
    rw [h1] at ih2
    rw [h2, Nat.add_div_right _ hpos]
    omega

/-- C4.  Pagination terminates on every finite store (the loop is a total
function of the finite document list) and its request count is bounded: at
most `⌈T/P⌉ + 1` page requests when a total `T` is declared — however `T`
misreports the true size — and at most `⌈|L|/P⌉ + 1` requests in every case,
declared total present, absent or inconsistent. -/
theorem paginate_api_terminates_bounded {α : Type} (L : List α) (nf : Option Nat)
    (rows : Nat) :
    (∀ T, nf = some T → (paginate_api L nf rows).2 ≤ (T + rows - 1) / rows + 1) ∧
    (paginate_api L nf rows).2 ≤ (L.length + rows - 1) / rows + 1 := by
  constructor
  · intro T hT
    subst hT
    have h := paginate_go_reqs_le_total L T rows 0 [] 0
    simpa [paginate_api] using h
  · have h := paginate_go_reqs_le_size L nf rows 0 [] 0
    simpa [paginate_api] using h

/-- C4 (witness).  A store of 5 documents with declared total 5 and page size
2 stays within the bound `⌈5/2⌉ + 1 = 4` on both counts. -/
theorem paginate_api_terminates_bounded_witness :
    (paginate_api (List.range 5) (some 5) 2).2 ≤ (5 + 2 - 1) / 2 + 1 ∧
    (paginate_api (List.range 5) (some 5) 2).2 ≤ ((List.range 5).length + 2 - 1) / 2 + 1 :=
  ⟨(paginate_api_terminates_bounded (List.range 5) (some 5) 2).1 5 rfl,
   (paginate_api_terminates_bounded (List.range 5) (some 5) 2).2⟩

end CostcoScraper
